import Mathlib

/-!
Shallow embedding of `bound.go` from strava/go.geo (package geo).

The repository's `bound.go` is the authority for every `Bound` operation.
`point.go` and the scalar geo-math helpers (constants, `deg2rad`, `rad2deg`,
`scalarMercatorInverse`) are not part of the provided source; where a claim
needs them they are modelled from the spec and marked as such.

Float64 coordinates are idealised: the order/min/max algebra of `Bound`
(`NewBound`, `Contains`, `Extend`, `Intersects`, `Clone`, `Pad`, `Empty`,
`Equals`) and the GeoHash bisection (exact dyadic midpoints) are embedded
over `ℚ`, where every operation used (comparison, min, max, halving of
dyadics) is exact in float64 as well; the trigonometric code
(`boundAroundPoint`) and the Mercator tile inverse are embedded over `ℝ`.
Go's in-place mutation is embedded functionally: each mutator returns the
updated value.
-/

namespace GoGeo

/-- Modelled from the spec (point.go is not under src/): a Point is two
ordered scalar coordinates, axis 0 = X/Lng and axis 1 = Y/Lat (§3, §4.1). -/
structure Point (α : Type) where
  x : α
  y : α
deriving DecidableEq, Repr

/-- Bound from `bound.go`: an enclosed box with corners `sw` and `ne`. -/
structure Bound (α : Type) where
  sw : Point α
  ne : Point α
deriving DecidableEq, Repr

section Algebra

variable {α : Type} [LinearOrderedField α]

/-- Modelled from the spec §4.1: `Point.Equals` is exact equality on both axes. -/
def Point.Equals (p q : Point α) : Bool :=
  decide (p.x = q.x) && decide (p.y = q.y)

/-- Modelled from the spec §4.1: `Point.Clone` returns an independent copy;
for the functional embedding this is the identity. -/
def Point.Clone (p : Point α) : Point α := p

/-- `NewBound` from `bound.go`: normalizes the four raw arguments with
`math.Min`/`math.Max` into sw/ne corners. -/
def NewBound (west east south north : α) : Bound α :=
  { sw := { x := min east west, y := min north south }
    ne := { x := max east west, y := max north south } }

/-- `Bound.Contains` from `bound.go`: inclusive on the boundary, written
exactly as the source's two early-return tests. -/
def Bound.Contains (b : Bound α) (point : Point α) : Bool :=
  if point.y < b.sw.y ∨ b.ne.y < point.y then false
  else if point.x < b.sw.x ∨ b.ne.x < point.x then false
  else true

/-- `Bound.Extend` from `bound.go`: short-circuits through `Contains`, else
widens each axis min/max (the source mutates `b`; here the result is returned). -/
def Bound.Extend (b : Bound α) (point : Point α) : Bound α :=
  if b.Contains point then b
  else
    { sw := { x := min b.sw.x point.x, y := min b.sw.y point.y }
      ne := { x := max b.ne.x point.x, y := max b.ne.y point.y } }

/-- `NewBoundFromPoints` from `bound.go`: a degenerate bound at `corner`
extended by `oppositeCorner`. -/
def NewBoundFromPoints (corner oppositeCorner : Point α) : Bound α :=
  Bound.Extend { sw := corner.Clone, ne := corner.Clone } oppositeCorner

/-- `Bound.SouthWest` from `bound.go` (returns a clone of `sw`). -/
def Bound.SouthWest (b : Bound α) : Point α := b.sw.Clone

/-- `Bound.NorthEast` from `bound.go` (returns a clone of `ne`). -/
def Bound.NorthEast (b : Bound α) : Point α := b.ne.Clone

/-- `Bound.SouthEast` from `bound.go`: lat of `sw`, lng of `ne`. -/
def Bound.SouthEast (b : Bound α) : Point α := { x := b.ne.x, y := b.sw.y }

/-- `Bound.NorthWest` from `bound.go`: lat of `ne`, lng of `sw`. -/
def Bound.NorthWest (b : Bound α) : Point α := { x := b.sw.x, y := b.ne.y }

/-- `Bound.Intersects` from `bound.go`: four corner-containment checks on the
receiver's corners against `bound`, then one containment of `bound.sw`. -/
def Bound.Intersects (b : Bound α) (bound : Bound α) : Bool :=
  if bound.Contains b.sw ∨ bound.Contains b.ne ∨
      bound.Contains b.SouthEast ∨ bound.Contains b.NorthWest then true
  else if b.Contains bound.sw then true
  else false

/-- `Bound.Pad` from `bound.go`: symmetric inflation by `amount` on all sides. -/
def Bound.Pad (b : Bound α) (amount : α) : Bound α :=
  { sw := { x := b.sw.x - amount, y := b.sw.y - amount }
    ne := { x := b.ne.x + amount, y := b.ne.y + amount } }

/-- `Bound.Empty` from `bound.go`: true when either axis has `sw >= ne`. -/
def Bound.Empty (b : Bound α) : Bool :=
  decide (b.ne.x ≤ b.sw.x) || decide (b.ne.y ≤ b.sw.y)

/-- `Bound.Equals` from `bound.go`: corner-wise `Point.Equals`. -/
def Bound.Equals (b c : Bound α) : Bool :=
  if b.sw.Equals c.sw && b.ne.Equals c.ne then true else false

/-- `Bound.Clone` from `bound.go`: `NewBoundFromPoints(b.sw, b.ne)`. -/
def Bound.Clone (b : Bound α) : Bound α := NewBoundFromPoints b.sw b.ne

end Algebra

/-! GeoHash decoding from `bound.go` (`geoHash2ranges`, `geoHashInt2ranges`).
The four local range variables are embedded as the `GeoRanges` structure;
all midpoints are dyadic rationals, exact in float64, so the embedding is
over `ℚ`. -/

/-- The four range variables of the GeoHash decoders in `bound.go`:
`lngMin`, `lngMax`, `latMin`, `latMax`. -/
structure GeoRanges where
  lngMin : ℚ
  lngMax : ℚ
  latMin : ℚ
  latMax : ℚ
deriving DecidableEq, Repr

/-- The base-32 alphabet literal of `geoHash2ranges` in `bound.go`. -/
def base32Alphabet : String := "0123456789bcdefghjkmnpqrstuvwxyz"

/-- Models Go's `strings.Index(base32Alphabet, string(r))`: the index of the
rune in the (all-ASCII) alphabet, or the sentinel `-1` when absent. -/
def charIndex (c : Char) : Int :=
  match base32Alphabet.toList.indexOf? c with
  | some n => (n : Int)
  | none => -1

/-- Models Go's `i & j` for a 64-bit `int i` and a non-negative mask `j`
(two's-complement bitwise AND; `i` is `-1` or a small non-negative index here). -/
def int64And (i : Int) (j : Nat) : Nat :=
  (Int.toNat (i % (2 ^ 64 : Int))) &&& j

/-- The inner loop `for j := 0x10; j != 0; j >>= 1` of `geoHash2ranges` in
`bound.go`: one 5-bit character, alternating axes starting from `even`,
bisecting the active axis at its midpoint (bit 0 keeps the lower half). -/
def geoHashCharStep (i : Int) (j : Nat) (even : Bool) (r : GeoRanges) :
    Bool × GeoRanges :=
  if j = 0 then (even, r)
  else
    let r' :=
      if even then
        let mid := (r.lngMin + r.lngMax) / 2
        if int64And i j = 0 then { r with lngMax := mid } else { r with lngMin := mid }
      else
        let mid := (r.latMin + r.latMax) / 2
        if int64And i j = 0 then { r with latMax := mid } else { r with latMin := mid }
    geoHashCharStep i (j / 2) (!even) r'
termination_by j
decreasing_by omega

/-- The outer `for _, r := range hash` loop of `geoHash2ranges` in `bound.go`;
the `even` flag persists across characters. -/
def geoHashFold (chars : List Char) (even : Bool) (r : GeoRanges) : GeoRanges :=
  match chars with
  | [] => r
  | c :: rest =>
    let er := geoHashCharStep (charIndex c) 16 even r
    geoHashFold rest er.1 er.2

/-- `geoHash2ranges` from `bound.go`: starts from `[-180,180] x [-90,90]`,
longitude first, and returns `(lngMin, lngMax, latMin, latMax)`. -/
def geoHash2ranges (hash : String) : GeoRanges :=
  geoHashFold hash.toList true ⟨-180, 180, -90, 90⟩

/-- `NewBoundFromGeoHash` from `bound.go`. -/
def NewBoundFromGeoHash (hash : String) : Bound ℚ :=
  let r := geoHash2ranges hash
  NewBound r.lngMin r.lngMax r.latMin r.latMax

/-- The `for i != 0` loop of `geoHashInt2ranges` in `bound.go`: each pass
shifts the cursor right (`i >>= 1`, i.e. `i / 2`), tests the longitude bit,
shifts again, tests the latitude bit, and continues with the shifted cursor.
The `int64` cursor and hash are modelled as `Nat` (the loop touches no
negative value for `bits ≤ 62`, below int64 overflow). -/
def geoHashIntLoop (hash : Nat) (i : Nat) (r : GeoRanges) : GeoRanges :=
  if i = 0 then r
  else
    let i1 := i / 2
    let midLng := (r.lngMin + r.lngMax) / 2
    let r1 := if hash &&& i1 = 0 then { r with lngMax := midLng }
              else { r with lngMin := midLng }
    let i2 := i1 / 2
    let midLat := (r1.latMin + r1.latMax) / 2
    let r2 := if hash &&& i2 = 0 then { r1 with latMax := midLat }
              else { r1 with latMin := midLat }
    geoHashIntLoop hash i2 r2
termination_by i
decreasing_by omega

/-- `geoHashInt2ranges` from `bound.go`: the cursor starts at `1 << bits`. -/
def geoHashInt2ranges (hash : Nat) (bits : Nat) : GeoRanges :=
  geoHashIntLoop hash (1 <<< bits) ⟨-180, 180, -90, 90⟩

/-- `NewBoundFromGeoHashInt64` from `bound.go`. -/
def NewBoundFromGeoHashInt64 (hash : Nat) (bits : Nat) : Bound ℚ :=
  let r := geoHashInt2ranges hash bits
  NewBound r.lngMin r.lngMax r.latMin r.latMax

/-- One bisection of a single axis range, bit 1 keeping the upper half;
used to phrase claim C4's description of the integer decoder. -/
def bisectRange (bit : Bool) (lo hi : ℚ) : ℚ × ℚ :=
  if bit then ((lo + hi) / 2, hi) else (lo, (lo + hi) / 2)

/-- Claim C4's description of `geoHashInt2ranges`, written from the claim's
words for comparison with the source: exactly `bits / 2` iterations, each
consuming one longitude bit then one latitude bit, most-significant first. -/
def geoHashIntRangesSpecLoop (hash : Nat) : Nat → GeoRanges → GeoRanges
  | 0, r => r
  | n + 1, r =>
    let lng := bisectRange (hash.testBit (2 * n + 1)) r.lngMin r.lngMax
    let lat := bisectRange (hash.testBit (2 * n)) r.latMin r.latMax
    geoHashIntRangesSpecLoop hash n ⟨lng.1, lng.2, lat.1, lat.2⟩

/-- Claim C4's `bits / 2`-iteration bisection, starting from
`[-180,180] x [-90,90]`. -/
def geoHashIntRangesSpec (hash : Nat) (bits : Nat) : GeoRanges :=
  geoHashIntRangesSpecLoop hash (bits / 2) ⟨-180, 180, -90, 90⟩

/-- The effect of the final pass of the `geoHashInt2ranges` loop, whose
cursor has already shifted to `0`: `hash & 0 == 0` on both axes, so both
upper bounds move to the midpoint. -/
def finalZeroMaskStep (r : GeoRanges) : GeoRanges :=
  ⟨r.lngMin, (r.lngMin + r.lngMax) / 2, r.latMin, (r.latMin + r.latMax) / 2⟩

/-! Real-valued geo math. The scalar helpers live outside `bound.go` and are
modelled from the spec; `boundAroundPoint` and `NewBoundFromMapTile` are
transcribed from `bound.go`. -/

noncomputable section RealGeo

/-- Modelled from the spec §4.2: mean Earth radius in meters, ~6,371,000. -/
def EarthRadius : ℝ := 6371000

/-- Modelled from the spec §4.2: `MinLatitude = -85.05112878°` (degrees). -/
def MinLatitude : ℝ := -85.05112878

/-- Modelled from the spec §4.2: `MaxLatitude = 85.05112878°` (degrees). -/
def MaxLatitude : ℝ := 85.05112878

/-- Modelled from the spec §4.2: `MinLongitude = -180°` (degrees). -/
def MinLongitude : ℝ := -180

/-- Modelled from the spec §4.2: `MaxLongitude = 180°` (degrees). -/
def MaxLongitude : ℝ := 180

/-- Modelled from the spec §4.2: degree-to-radian conversion, exact
multiplication by `π / 180`. -/
def deg2rad (d : ℝ) : ℝ := d * Real.pi / 180

/-- Modelled from the spec §4.2: radian-to-degree conversion, the inverse
multiplication. -/
def rad2deg (r : ℝ) : ℝ := r * 180 / Real.pi

/-- `boundAroundPoint` from `bound.go`, transcribed line by line over `ℝ`
(`center.Lat()` is `y`, `center.Lng()` is `x`; `math.Asin` idealised as
`Real.arcsin`). Note the source compares the radian values `minLat`/`maxLat`
and `minLon`/`maxLon` directly against the degree-valued domain constants. -/
def boundAroundPoint (center : Point ℝ) (distance : ℝ) : Bound ℝ :=
  let radDist := distance / EarthRadius
  let radLat := deg2rad center.y
  let radLon := deg2rad center.x
  let minLat := radLat - radDist
  let maxLat := radLat + radDist
  if MinLatitude < minLat ∧ maxLat < MaxLatitude then
    let deltaLon := Real.arcsin (Real.sin radDist / Real.cos radLat)
    let minLon0 := radLon - deltaLon
    let minLon := if minLon0 < MinLongitude then minLon0 + 2 * Real.pi else minLon0
    let maxLon0 := radLon + deltaLon
    let maxLon := if MaxLongitude < maxLon0 then maxLon0 - 2 * Real.pi else maxLon0
    { sw := { x := rad2deg minLon, y := rad2deg minLat }
      ne := { x := rad2deg maxLon, y := rad2deg maxLat } }
  else
    { sw := { x := rad2deg MinLongitude, y := rad2deg (max minLat MinLatitude) }
      ne := { x := rad2deg MaxLongitude, y := rad2deg (min maxLat MaxLatitude) } }

/-- `NewBoundAroundPoint` from `bound.go`: panics (here `none`) on a negative
distance, else delegates to `boundAroundPoint`. -/
def NewBoundAroundPoint (center : Point ℝ) (distance : ℝ) : Option (Bound ℝ) :=
  if distance < 0 then none else some (boundAroundPoint center distance)

/-- Modelled from the spec §4.2: `scalarMercatorInverse` is not under src/
(only `bound.go` is). Per the spec it is the algebraic inverse of the forward
Web-Mercator map `x = (lng+180)/360 * 2^P`, with `y` derived from
`ln(tan(π/4 + lat_rad/2))` mapped onto `[0, 2^P)`. Its exact values are not
needed by any claim theorem below. -/
def scalarMercatorInverse (x y : Nat) (p : Nat) : ℝ × ℝ :=
  ((x : ℝ) / 2 ^ p * 360 - 180,
   rad2deg (2 * Real.arctan (Real.exp (Real.pi * (1 - 2 * (y : ℝ) / 2 ^ p))) - Real.pi / 2))

/-- The `maxIndex := uint64(1) << z` computation of `NewBoundFromMapTile`,
with Go's 64-bit wraparound made explicit. -/
def maxTileIndex (z : Nat) : Nat := (1 <<< z) % 2 ^ 64

/-- The shift of `NewBoundFromMapTile` in `bound.go`: `shift := 31 - z`
(uint64, wrapping), overwritten with `0` when `z > 31`; for `z ≤ 31` the
wrapping subtraction agrees with the plain one. -/
def tileShift (z : Nat) : Nat := if z > 31 then 0 else 31 - z

/-- The bound built by the non-panicking branch of `NewBoundFromMapTile`:
inverse-project the shifted corner `(x, y)` and the diagonal opposite
`(x+1, y+1)` at 31-bit precision, then min/max the two results. For in-range
tiles the shifted values stay below `2^64`, so no wraparound is applied. -/
def mapTileBound (x y z : Nat) : Bound ℝ :=
  let s := tileShift z
  let ll1 := scalarMercatorInverse (x <<< s) (y <<< s) 31
  let ll2 := scalarMercatorInverse ((x + 1) <<< s) ((y + 1) <<< s) 31
  { sw := { x := min ll1.1 ll2.1, y := min ll1.2 ll2.2 }
    ne := { x := max ll1.1 ll2.1, y := max ll1.2 ll2.2 } }

/-- `NewBoundFromMapTile` from `bound.go`: panics (here `none`) when `x` or
`y` reaches `maxIndex` (the `x < 0 || y < 0` tests are vacuous for uint64). -/
def NewBoundFromMapTile (x y z : Nat) : Option (Bound ℝ) :=
  let maxIndex := maxTileIndex z
  if maxIndex ≤ x ∨ maxIndex ≤ y then none
  else some (mapTileBound x y z)

end RealGeo

/-! Theorems for the claims. -/

/-- C8: for all four rational arguments in any order, the bound returned by
`NewBound(west, east, south, north)` satisfies `sw.X() <= ne.X()` and
`sw.Y() <= ne.Y()`. -/
theorem newBound_normalizes (west east south north : ℚ) :
    (NewBound west east south north).sw.x ≤ (NewBound west east south north).ne.x ∧
    (NewBound west east south north).sw.y ≤ (NewBound west east south north).ne.y :=
  ⟨min_le_max, min_le_max⟩

/-- Helper: a bound whose corners weakly surround a point contains it. -/
theorem contains_of_between {b : Bound ℚ} {p : Point ℚ} (hx1 : b.sw.x ≤ p.x)
    (hx2 : p.x ≤ b.ne.x) (hy1 : b.sw.y ≤ p.y) (hy2 : p.y ≤ b.ne.y) :
    b.Contains p = true := by
  unfold Bound.Contains
  rw [if_neg, if_neg]
  · rintro (h | h)
    · exact absurd h (not_lt.mpr hx1)
    · exact absurd h (not_lt.mpr hx2)
  · rintro (h | h)
    · exact absurd h (not_lt.mpr hy1)
    · exact absurd h (not_lt.mpr hy2)

/-- C9: `Extend` is idempotent: extending a bound twice by the same point
yields the same bound as extending it once. -/
theorem extend_idempotent (b : Bound ℚ) (p : Point ℚ) :
    Bound.Extend (Bound.Extend b p) p = Bound.Extend b p := by
  by_cases h : b.Contains p
  · have e1 : Bound.Extend b p = b := by simp [Bound.Extend, h]
    rw [e1]
    exact e1
  · have e1 : Bound.Extend b p =
        ⟨⟨min b.sw.x p.x, min b.sw.y p.y⟩, ⟨max b.ne.x p.x, max b.ne.y p.y⟩⟩ := by
      simp [Bound.Extend, h]
    have hc : (Bound.Extend b p).Contains p = true := by
      rw [e1]
      exact contains_of_between (min_le_right _ _) (le_max_right _ _)
        (min_le_right _ _) (le_max_right _ _)
    have noop : ∀ c : Bound ℚ, c.Contains p = true → Bound.Extend c p = c := by
      intro c hcc
      simp [Bound.Extend, hcc]
    exact noop _ hc

/-- C1: the claim states `a.Intersects(b)` is true iff the boxes overlap or
touch (`a.sw.x ≤ b.ne.x ∧ b.sw.x ≤ a.ne.x ∧ a.sw.y ≤ b.ne.y ∧ b.sw.y ≤ a.ne.y`).
The code misses the "cross" configuration: for the normalized bounds
`a = [0,10] x [4,6]` and `b = [4,6] x [0,10]`, which genuinely overlap
(the axis-overlap test holds), no corner of either box lies inside the
other and `Intersects` returns `false`, contradicting the claim and the
function's own doc comment. -/
theorem intersects_misses_cross_overlap :
    Bound.Intersects (α := ℚ) ⟨⟨0, 4⟩, ⟨10, 6⟩⟩ ⟨⟨4, 0⟩, ⟨6, 10⟩⟩ = false ∧
    ((⟨⟨0, 4⟩, ⟨10, 6⟩⟩ : Bound ℚ).sw.x ≤ (⟨⟨4, 0⟩, ⟨6, 10⟩⟩ : Bound ℚ).ne.x ∧
      (⟨⟨4, 0⟩, ⟨6, 10⟩⟩ : Bound ℚ).sw.x ≤ (⟨⟨0, 4⟩, ⟨10, 6⟩⟩ : Bound ℚ).ne.x ∧
      (⟨⟨0, 4⟩, ⟨10, 6⟩⟩ : Bound ℚ).sw.y ≤ (⟨⟨4, 0⟩, ⟨6, 10⟩⟩ : Bound ℚ).ne.y ∧
      (⟨⟨4, 0⟩, ⟨6, 10⟩⟩ : Bound ℚ).sw.y ≤ (⟨⟨0, 4⟩, ⟨10, 6⟩⟩ : Bound ℚ).ne.y) ∧
    ((⟨⟨0, 4⟩, ⟨10, 6⟩⟩ : Bound ℚ).sw.x ≤ (⟨⟨0, 4⟩, ⟨10, 6⟩⟩ : Bound ℚ).ne.x ∧
      (⟨⟨0, 4⟩, ⟨10, 6⟩⟩ : Bound ℚ).sw.y ≤ (⟨⟨0, 4⟩, ⟨10, 6⟩⟩ : Bound ℚ).ne.y ∧
      (⟨⟨4, 0⟩, ⟨6, 10⟩⟩ : Bound ℚ).sw.x ≤ (⟨⟨4, 0⟩, ⟨6, 10⟩⟩ : Bound ℚ).ne.x ∧
      (⟨⟨4, 0⟩, ⟨6, 10⟩⟩ : Bound ℚ).sw.y ≤ (⟨⟨4, 0⟩, ⟨6, 10⟩⟩ : Bound ℚ).ne.y) := by
  decide

/-- C5: the claim states `a.Intersects(b) == b.Intersects(a)` for every pair
of bounds. For the normalized, genuinely overlapping bounds
`a = [0,5] x [0,5]` and `b = [-1,10] x [3,10]`, `a.Intersects(b)` is true
(`b` contains `a.ne`) while `b.Intersects(a)` is false (no corner of `b`
lies in `a`, and `b` does not contain `a.sw`): the implementation is not
symmetric, contradicting the intersection relation it documents. -/
theorem intersects_asymmetric_example :
    Bound.Intersects (α := ℚ) ⟨⟨0, 0⟩, ⟨5, 5⟩⟩ ⟨⟨-1, 3⟩, ⟨10, 10⟩⟩ = true ∧
    Bound.Intersects (α := ℚ) ⟨⟨-1, 3⟩, ⟨10, 10⟩⟩ ⟨⟨0, 0⟩, ⟨5, 5⟩⟩ = false := by
  decide

/-- Helper: padding the unit box by `-1` produces the inverted bound
`sw = (1,1)`, `ne = (0,0)`. -/
theorem pad_unit_neg_one :
    Bound.Pad (NewBound (0:ℚ) 1 0 1) (-1) = ⟨⟨1, 1⟩, ⟨0, 0⟩⟩ := by
  have h0 : min (1:ℚ) 0 = 0 := min_eq_right (by norm_num)
  have h1 : max (1:ℚ) 0 = 1 := max_eq_left (by norm_num)
  simp [Bound.Pad, NewBound, h0, h1]

/-- C6 counterexample: the claim includes bounds made malformed by negative
padding, but `Pad(-1)` on the unit box yields `sw = (1,1)`, `ne = (0,0)`,
and `Contains` rejects both of its own corners (`ne.Y < sw.Y`). -/
theorem malformed_pad_bound_misses_corner :
    Bound.Contains (Bound.Pad (NewBound (0:ℚ) 1 0 1) (-1))
      (Bound.SouthWest (Bound.Pad (NewBound (0:ℚ) 1 0 1) (-1))) = false ∧
    Bound.Contains (Bound.Pad (NewBound (0:ℚ) 1 0 1) (-1))
      (Bound.NorthEast (Bound.Pad (NewBound (0:ℚ) 1 0 1) (-1))) = false := by
  rw [pad_unit_neg_one]
  decide

/-- C6 amended: restricted to normalized bounds (`sw <= ne` on both axes),
a bound contains its own `SouthWest()` and `NorthEast()` corners. -/
theorem contains_corners_of_normalized (b : Bound ℚ) (hx : b.sw.x ≤ b.ne.x)
    (hy : b.sw.y ≤ b.ne.y) :
    Bound.Contains b (Bound.SouthWest b) = true ∧
    Bound.Contains b (Bound.NorthEast b) = true :=
  ⟨contains_of_between le_rfl hx le_rfl hy, contains_of_between hx le_rfl hy le_rfl⟩

/-- C6 witness: the amended statement evaluated on the bound
`[0,2] x [0,3]`. -/
theorem contains_corners_of_normalized_witness :
    Bound.Contains (⟨⟨0, 0⟩, ⟨2, 3⟩⟩ : Bound ℚ) (Bound.SouthWest ⟨⟨0, 0⟩, ⟨2, 3⟩⟩) = true ∧
    Bound.Contains (⟨⟨0, 0⟩, ⟨2, 3⟩⟩ : Bound ℚ) (Bound.NorthEast ⟨⟨0, 0⟩, ⟨2, 3⟩⟩) = true :=
  contains_corners_of_normalized _ (by decide) (by decide)

/-- Helper: `Clone` always returns the componentwise min/max normalization
of the two stored corners (`NewBoundFromPoints` via `Extend`). -/
theorem clone_eq_minmax (b : Bound ℚ) :
    Bound.Clone b = ⟨⟨min b.sw.x b.ne.x, min b.sw.y b.ne.y⟩,
      ⟨max b.sw.x b.ne.x, max b.sw.y b.ne.y⟩⟩ := by
  unfold Bound.Clone NewBoundFromPoints Point.Clone
  by_cases h : (Bound.mk b.sw b.sw).Contains b.ne = true
  · have hxy : b.ne.y = b.sw.y ∧ b.ne.x = b.sw.x := by
      unfold Bound.Contains at h
      by_cases hA : b.ne.y < b.sw.y ∨ b.sw.y < b.ne.y
      · rw [if_pos hA] at h
        exact absurd h (by simp)
      · by_cases hB : b.ne.x < b.sw.x ∨ b.sw.x < b.ne.x
        · rw [if_neg hA, if_pos hB] at h
          exact absurd h (by simp)
        · push_neg at hA hB
          exact ⟨le_antisymm hA.2 hA.1, le_antisymm hB.2 hB.1⟩
    obtain ⟨hy, hx⟩ := hxy
    simp [Bound.Extend, h, hx, hy]
  · simp [Bound.Extend, h]

/-- Helper: bounds whose sw corners differ in some coordinate are not
`Equals`. -/
theorem equals_false_of_sw_ne {b c : Bound ℚ}
    (h : b.sw.x ≠ c.sw.x ∨ b.sw.y ≠ c.sw.y) : Bound.Equals b c = false := by
  rcases h with h | h <;> simp [Bound.Equals, Point.Equals, h]

/-- C10: `Clone` is an exact copy exactly on normalized bounds: when
`sw <= ne` on both axes, `b.Clone().Equals(b)`; a malformed bound (some
axis inverted) is min/max-normalized by `Clone`, so `Equals` fails, and on
the `Pad(-1)`-inverted unit box `Clone().Empty()` differs from `Empty()`. -/
theorem clone_normalizes :
    (∀ b : Bound ℚ, b.sw.x ≤ b.ne.x → b.sw.y ≤ b.ne.y →
        Bound.Equals (Bound.Clone b) b = true) ∧
    (∀ b : Bound ℚ, b.ne.x < b.sw.x ∨ b.ne.y < b.sw.y →
        Bound.Clone b = ⟨⟨min b.sw.x b.ne.x, min b.sw.y b.ne.y⟩,
          ⟨max b.sw.x b.ne.x, max b.sw.y b.ne.y⟩⟩ ∧
        Bound.Equals (Bound.Clone b) b = false) ∧
    Bound.Empty (Bound.Clone (Bound.Pad (NewBound (0:ℚ) 1 0 1) (-1))) = false ∧
    Bound.Empty (Bound.Pad (NewBound (0:ℚ) 1 0 1) (-1)) = true := by
  refine ⟨?_, ?_, ?_, ?_⟩
  · intro b hx hy
    rw [clone_eq_minmax, min_eq_left hx, min_eq_left hy, max_eq_right hx,
      max_eq_right hy]
    simp [Bound.Equals, Point.Equals]
  · intro b hmal
    rw [clone_eq_minmax]
    refine ⟨rfl, equals_false_of_sw_ne ?_⟩
    rcases hmal with hx | hy
    · exact Or.inl (by rw [min_eq_right hx.le]; exact ne_of_lt hx)
    · exact Or.inr (by rw [min_eq_right hy.le]; exact ne_of_lt hy)
  · rw [pad_unit_neg_one]
    decide
  · rw [pad_unit_neg_one]
    decide

/-- C10 witness: the claim evaluated on the normalized bound `[0,2] x [0,3]`
and the inverted bound `sw = (1,1)`, `ne = (0,0)`. -/
theorem clone_normalizes_witness :
    Bound.Equals (Bound.Clone (⟨⟨0, 0⟩, ⟨2, 3⟩⟩ : Bound ℚ)) ⟨⟨0, 0⟩, ⟨2, 3⟩⟩ = true ∧
    Bound.Equals (Bound.Clone (⟨⟨1, 1⟩, ⟨0, 0⟩⟩ : Bound ℚ)) ⟨⟨1, 1⟩, ⟨0, 0⟩⟩ = false :=
  ⟨clone_normalizes.1 _ (by decide) (by decide),
   (clone_normalizes.2.1 _ (Or.inl (by decide))).2⟩

/-- Helper: Go's `-1 & 16` (sentinel AND the first bit cursor) is `16`. -/
theorem int64And_neg_one_16 : int64And (-1) 16 = 16 := by decide

/-- Helper: Go's `-1 & 8` is `8`. -/
theorem int64And_neg_one_8 : int64And (-1) 8 = 8 := by decide

/-- Helper: Go's `-1 & 4` is `4`. -/
theorem int64And_neg_one_4 : int64And (-1) 4 = 4 := by decide

/-- Helper: Go's `-1 & 2` is `2`. -/
theorem int64And_neg_one_2 : int64And (-1) 2 = 2 := by decide

/-- Helper: Go's `-1 & 1` is `1`. -/
theorem int64And_neg_one_1 : int64And (-1) 1 = 1 := by decide

/-- C3 amended: decoding a string with a character outside the base-32
alphabet does not fail; `strings.Index` yields the sentinel `-1`, whose
bitwise AND with every cursor bit is nonzero, so all five bits of the
character bisect toward the upper half: any single out-of-alphabet
character decodes to `(lng, lat) = ([135, 180], [45, 90])`. -/
theorem geoHash_invalid_char_sentinel (c : Char) (h : charIndex c = -1) :
    geoHash2ranges ⟨[c]⟩ = ⟨135, 180, 45, 90⟩ := by
  have e : geoHash2ranges ⟨[c]⟩ =
      (geoHashCharStep (charIndex c) 16 true ⟨-180, 180, -90, 90⟩).2 := rfl
  rw [e, h]
  simp [geoHashCharStep, int64And_neg_one_16, int64And_neg_one_8,
    int64And_neg_one_4, int64And_neg_one_2, int64And_neg_one_1]
  norm_num

/-- C3 witness: the character `a` is outside the alphabet and decodes to the
upper-half ranges. -/
theorem geoHash_invalid_char_sentinel_witness :
    charIndex 'a' = -1 ∧ geoHash2ranges ⟨['a']⟩ = ⟨135, 180, 45, 90⟩ :=
  ⟨by decide, geoHash_invalid_char_sentinel 'a' (by decide)⟩

/-- C3 counterexample: the claim says decoding must fail with an
`InvalidEncoding` error for an out-of-alphabet character, but the source has
no error path: `geoHash2ranges` on the invalid string containing only `a`
(not in the alphabet, index `-1`) returns ordinary ranges and
`NewBoundFromGeoHash` builds a bound from them. -/
theorem geoHash_invalid_char_decodes :
    geoHash2ranges ⟨['a']⟩ = ⟨135, 180, 45, 90⟩ ∧ charIndex 'a' = -1 ∧
    NewBoundFromGeoHash ⟨['a']⟩ = ⟨⟨135, 45⟩, ⟨180, 90⟩⟩ := by
  have hc : charIndex 'a' = -1 := by decide
  have e : geoHash2ranges ⟨['a']⟩ =
      (geoHashCharStep (charIndex 'a') 16 true ⟨-180, 180, -90, 90⟩).2 := rfl
  have hg : geoHash2ranges ⟨['a']⟩ = ⟨135, 180, 45, 90⟩ := by
    rw [e, hc]
    simp [geoHashCharStep, int64And_neg_one_16, int64And_neg_one_8,
      int64And_neg_one_4, int64And_neg_one_2, int64And_neg_one_1]
    norm_num
  refine ⟨hg, hc, ?_⟩
  have e2 : NewBoundFromGeoHash ⟨['a']⟩ =
      NewBound (geoHash2ranges ⟨['a']⟩).lngMin (geoHash2ranges ⟨['a']⟩).lngMax
        (geoHash2ranges ⟨['a']⟩).latMin (geoHash2ranges ⟨['a']⟩).latMax := rfl
  rw [e2, hg]
  have m1 : min (180:ℚ) 135 = 135 := min_eq_right (by norm_num)
  have m2 : max (180:ℚ) 135 = 180 := max_eq_left (by norm_num)
  have m3 : min (90:ℚ) 45 = 45 := min_eq_right (by norm_num)
  have m4 : max (90:ℚ) 45 = 90 := max_eq_left (by norm_num)
  simp [NewBound, m1, m2, m3, m4]

/-- Helper: a bitwise AND against a single-bit mask vanishes exactly when
that bit of the hash is clear. -/
theorem and_pow_eq_zero_iff (hash k : Nat) :
    (hash &&& 2 ^ k = 0) ↔ hash.testBit k = false := by
  rw [Nat.and_two_pow]
  cases h : hash.testBit k <;> simp [h]

/-- Helper: on a cursor of `2 ^ (2n)` the `geoHashInt2ranges` loop performs
the `n` claimed bit-pair bisections and then one further pass whose masks
have shifted to zero. -/
theorem geoHashIntLoop_two_pow (hash : Nat) :
    ∀ (n : Nat) (r : GeoRanges),
      geoHashIntLoop hash (2 ^ (2 * n)) r =
        finalZeroMaskStep (geoHashIntRangesSpecLoop hash n r) := by
  intro n
  induction n with
  | zero =>
    intro r
    rw [show (2:Nat) ^ (2 * 0) = 1 from by norm_num]
    simp [geoHashIntLoop, finalZeroMaskStep, geoHashIntRangesSpecLoop]
  | succ n ih =>
    intro r
    have e1 : (2:Nat) ^ (2 * (n + 1)) / 2 = 2 ^ (2 * n + 1) := by
      rw [show 2 * (n + 1) = (2 * n + 1) + 1 from by ring, pow_succ]
      exact Nat.mul_div_cancel _ two_pos
    have e2 : (2:Nat) ^ (2 * n + 1) / 2 = 2 ^ (2 * n) := by
      rw [pow_succ]
      exact Nat.mul_div_cancel _ two_pos
    rw [geoHashIntLoop.eq_def]
    rw [if_neg ((by positivity : (0:ℕ) < 2 ^ (2 * (n + 1))).ne')]
    simp only [e1, e2]
    rcases hb1 : hash.testBit (2 * n + 1) <;> rcases hb2 : hash.testBit (2 * n) <;>
      simp [and_pow_eq_zero_iff, hb1, hb2, geoHashIntRangesSpecLoop, bisectRange] <;>
      rw [ih]

/-- C4 amended: for an even bit count `2n` (kept below int64 overflow), the
integer decoder equals the claim's `n` most-significant-first bit-pair
bisections followed by one extra loop pass whose cursor has already shifted
to zero, which bisects both axes once more toward the lower half: the loop
runs `bits/2 + 1` times, not `bits/2`. -/
theorem geoHashInt_extra_bisection (hash n : Nat) (h : 2 * n ≤ 62) :
    geoHashInt2ranges hash (2 * n) =
      finalZeroMaskStep (geoHashIntRangesSpec hash (2 * n)) := by
  unfold geoHashInt2ranges geoHashIntRangesSpec
  rw [Nat.one_shiftLeft, Nat.mul_div_cancel_left n two_pos]
  exact geoHashIntLoop_two_pow hash n _

/-- C4 witness: the amended statement evaluated at `hash = 3`, `bits = 2`. -/
theorem geoHashInt_extra_bisection_witness :
    geoHashInt2ranges 3 2 = finalZeroMaskStep (geoHashIntRangesSpec 3 2) :=
  geoHashInt_extra_bisection 3 1 (by decide)

/-- C4 counterexample: at `hash = 3`, `bits = 2` the claim's single
bisection per axis would give `(lng, lat) = ([0,180], [0,90])`, but the
source loop tests `i != 0` before the shifts, so a final pass with mask `0`
runs and narrows both axes again: the code returns `([0,90], [0,45])`. -/
theorem geoHashInt_extra_iteration_example :
    geoHashInt2ranges 3 2 = ⟨0, 90, 0, 45⟩ ∧
    geoHashIntRangesSpec 3 2 = ⟨0, 180, 0, 90⟩ ∧
    geoHashInt2ranges 3 2 ≠ geoHashIntRangesSpec 3 2 := by
  have h1 : geoHashInt2ranges 3 2 = ⟨0, 90, 0, 45⟩ := by
    unfold geoHashInt2ranges
    rw [show (1 <<< 2 : Nat) = 4 from rfl]
    simp [geoHashIntLoop, show (3 &&& 2 : Nat) = 2 from rfl,
      show (3 &&& 1 : Nat) = 1 from rfl, Nat.and_zero]
    norm_num
  have h2 : geoHashIntRangesSpec 3 2 = ⟨0, 180, 0, 90⟩ := by
    unfold geoHashIntRangesSpec
    simp [geoHashIntRangesSpecLoop, bisectRange,
      show Nat.testBit 3 1 = true from rfl, show Nat.testBit 3 0 = true from rfl]
  refine ⟨h1, h2, ?_⟩
  rw [h1, h2]
  decide

/-- C7 amended: for uint64 inputs, `NewBoundFromMapTile` fails exactly when
`x` or `y` reaches `maxIndex = (1 << zoom) mod 2^64`; for `zoom ≤ 63` this
is the claimed `2^zoom`, but for `zoom ≥ 64` the shift wraps to `0` and
construction always fails, even though `x < 2^zoom` holds; otherwise the
bound is built through `mapTileBound`, whose shift is `31 - zoom` clamped to
`0` when `zoom` exceeds `31` (`tileShift`). -/
theorem newBoundFromMapTile_range_check (x y z : Nat) (hx : x < 2 ^ 64)
    (hy : y < 2 ^ 64) :
    ((NewBoundFromMapTile x y z = none) ↔ (maxTileIndex z ≤ x ∨ maxTileIndex z ≤ y)) ∧
    (x < maxTileIndex z → y < maxTileIndex z →
      NewBoundFromMapTile x y z = some (mapTileBound x y z)) ∧
    (z ≤ 63 → maxTileIndex z = 2 ^ z) ∧
    (64 ≤ z → maxTileIndex z = 0) := by
  refine ⟨?_, ?_, ?_, ?_⟩
  · by_cases h : maxTileIndex z ≤ x ∨ maxTileIndex z ≤ y
    · simp [NewBoundFromMapTile, h]
    · simp [NewBoundFromMapTile, h]
  · intro h1 h2
    have h : ¬(maxTileIndex z ≤ x ∨ maxTileIndex z ≤ y) := by
      push_neg
      exact ⟨h1, h2⟩
    simp [NewBoundFromMapTile, h]
  · intro hz
    unfold maxTileIndex
    rw [Nat.one_shiftLeft]
    exact Nat.mod_eq_of_lt (Nat.pow_lt_pow_right (by norm_num) (by omega))
  · intro hz
    unfold maxTileIndex
    rw [Nat.one_shiftLeft]
    exact Nat.mod_eq_zero_of_dvd (pow_dvd_pow 2 hz)

/-- C7 witness: the amended statement evaluated at tile `(0, 0, 1)`. -/
theorem newBoundFromMapTile_range_check_witness :
    ((NewBoundFromMapTile 0 0 1 = none) ↔
      (maxTileIndex 1 ≤ 0 ∨ maxTileIndex 1 ≤ 0)) ∧
    (0 < maxTileIndex 1 → 0 < maxTileIndex 1 →
      NewBoundFromMapTile 0 0 1 = some (mapTileBound 0 0 1)) ∧
    (1 ≤ 63 → maxTileIndex 1 = 2 ^ 1) ∧
    (64 ≤ 1 → maxTileIndex 1 = 0) :=
  newBoundFromMapTile_range_check 0 0 1 (by decide) (by decide)

/-- C7 counterexample: the claim says failure happens exactly when
`x ≥ 2^zoom` or `y ≥ 2^zoom`, but at `(x, y, zoom) = (0, 0, 64)` the uint64
computation `1 << 64` wraps to `0`, so the source panics even though
`0 < 2^64`. -/
theorem mapTile_zoom64_always_fails :
    NewBoundFromMapTile 0 0 64 = none ∧ ¬((2:Nat) ^ 64 ≤ 0) := by
  constructor
  · have hm : maxTileIndex 64 = 0 := by decide
    simp [NewBoundFromMapTile, hm]
  · decide

/-- C2: the polar clamp of `boundAroundPoint` never takes effect as claimed,
because the source compares the radian values `minLat`/`maxLat` against the
degree-valued constants `±85.05112878`. At `center = (0°, 85°)` and
`distance = 637100 m` (angular distance `0.1 rad ≈ 5.73°`, so the claimed
latitude bound `85° + 5.73°` exceeds the Mercator domain and the claim
requires `ne` latitude clamped to `85.05112878` with full longitude range),
the non-clamping branch runs and returns `ne` latitude `85 + 18/π ≈ 90.73°`.
Conversely, when the clamp branch does trigger (`distance = 6371e5 m`,
angular distance `100 rad`), it stores the degree constants as radians and
converts them again, so the west longitude is `-32400/π ≈ -10313°` rather
than `-180°` and the `ne` latitude is not `85.05112878` either. -/
theorem boundAroundPoint_polar_clamp_bug :
    (boundAroundPoint ⟨0, 85⟩ 637100).ne.y = 85 + 18 / Real.pi ∧
    MaxLatitude < (boundAroundPoint ⟨0, 85⟩ 637100).ne.y ∧
    MaxLatitude < 85 + rad2deg (637100 / EarthRadius) ∧
    (boundAroundPoint ⟨0, 0⟩ 637100000).sw.x ≠ MinLongitude ∧
    (boundAroundPoint ⟨0, 0⟩ 637100000).ne.y ≠ MaxLatitude := by
  have hpi3 : (3:ℝ) < Real.pi := Real.pi_gt_three
  have hpi315 : Real.pi < 3.15 := Real.pi_lt_d2
  have hpi0 : (0:ℝ) < Real.pi := by linarith
  have h18 : (5:ℝ) < 18 / Real.pi := by
    rw [lt_div_iff₀ hpi0]
    nlinarith
  have hcond : MinLatitude < deg2rad (85:ℝ) - 637100 / EarthRadius ∧
      deg2rad (85:ℝ) + 637100 / EarthRadius < MaxLatitude := by
    unfold MinLatitude MaxLatitude deg2rad EarthRadius
    norm_num
    constructor <;> nlinarith
  have hney : (boundAroundPoint ⟨0, 85⟩ 637100).ne.y =
      rad2deg (deg2rad (85:ℝ) + 637100 / EarthRadius) := by
    simp only [boundAroundPoint]
    split
    · rfl
    · next h => exact absurd hcond h
  have hval : rad2deg (deg2rad (85:ℝ) + 637100 / EarthRadius) = 85 + 18 / Real.pi := by
    unfold rad2deg deg2rad EarthRadius
    field_simp
    ring
  have hcond2 : ¬(MinLatitude < deg2rad (0:ℝ) - 637100000 / EarthRadius ∧
      deg2rad (0:ℝ) + 637100000 / EarthRadius < MaxLatitude) := by
    unfold MinLatitude MaxLatitude deg2rad EarthRadius
    intro hc
    have h1 := hc.1
    norm_num at h1
  have hswx : (boundAroundPoint ⟨0, 0⟩ 637100000).sw.x = rad2deg MinLongitude := by
    simp only [boundAroundPoint]
    split
    · next h => exact absurd h hcond2
    · rfl
  have hney2 : (boundAroundPoint ⟨0, 0⟩ 637100000).ne.y =
      rad2deg (min (deg2rad (0:ℝ) + 637100000 / EarthRadius) MaxLatitude) := by
    simp only [boundAroundPoint]
    split
    · next h => exact absurd h hcond2
    · rfl
  refine ⟨?_, ?_, ?_, ?_, ?_⟩
  · rw [hney, hval]
  · rw [hney, hval]
    unfold MaxLatitude
    linarith
  · have hr : rad2deg (637100 / EarthRadius) = 18 / Real.pi := by
      unfold rad2deg EarthRadius
      field_simp
      ring
    rw [hr]
    unfold MaxLatitude
    linarith
  · rw [hswx]
    unfold rad2deg MinLongitude
    intro heq
    have : Real.pi = 180 := by
      field_simp at heq
      linarith
    linarith
  · rw [hney2]
    have hmin : min (deg2rad (0:ℝ) + 637100000 / EarthRadius) MaxLatitude = MaxLatitude := by
      unfold deg2rad EarthRadius MaxLatitude
      rw [min_eq_right]
      norm_num
    rw [hmin]
    unfold rad2deg MaxLatitude
    intro heq
    field_simp at heq
    rcases heq with heq | heq
    · linarith
    · norm_num at heq

end GoGeo
